import Mathlib

/-!
Shallow embedding of the 3D-Tetris game-state engine (`tetris.py`) and proofs
of its specified properties.

The embedding mirrors the source:
* the playfield `grid` is a nested list indexed `grid[x][y][z]`, each cell
  either `none` (empty) or `some` RGB color;
* colors are the exact rational values of the source's float literals
  (the source never does arithmetic on colors, only stores and compares them);
* Python `list.pop()` (pop from the end) is `pop_last`, returning `none`
  where Python would raise `IndexError`;
* `random.shuffle` of the refilled bag is modelled by an explicit `refill`
  parameter, constrained to be a permutation of `List.range 7` in theorems;
* the `while` loop of the layer-clearing phase is expressed with a fuel
  parameter large enough that it never runs out on an 8 x 20 x 8 grid.
-/

namespace Tetris3D

/-- RGB color, three channels (rationals standing for the source's floats). -/
abbrev Color := ℚ × ℚ × ℚ

/-- An offset or a position: integer (x, y, z). -/
abbrev V3 := Int × Int × Int

/-- `GRID_SIZE = (8, 20, 8)`: (x, y, z) dimensions of the playfield. -/
def GRID_SIZE : Nat × Nat × Nat := (8, 20, 8)

/-- `FALL_INTERVAL_MS = 500`: gravity threshold in milliseconds. -/
def FALL_INTERVAL_MS : Nat := 500

/-- `CYBER_COLORS`: the 7-entry palette, paired 1:1 with `SHAPES_3D`. -/
def CYBER_COLORS : List Color :=
  [ (0, 1, 1)
  , (1, 1, 0)
  , (1, 647/1000, 0)
  , (0, 0, 1)
  , (1/2, 0, 1/2)
  , (0, 1, 0)
  , (1, 0, 0) ]

/-- `SHAPES_3D`: the seven shapes as lists of (x, y, z) cell offsets. -/
def SHAPES_3D : List (List V3) :=
  [ [(0,0,0), (1,0,0), (2,0,0), (3,0,0)]
  , [(0,0,0), (1,0,0), (0,1,0), (1,1,0), (0,0,1), (1,0,1), (0,1,1), (1,1,1)]
  , [(0,0,0), (1,0,0), (2,0,0), (2,1,0)]
  , [(0,0,0), (1,0,0), (2,0,0), (0,1,0)]
  , [(0,0,0), (1,0,0), (2,0,0), (1,1,0)]
  , [(1,0,0), (2,0,0), (0,1,0), (1,1,0)]
  , [(0,0,0), (1,0,0), (1,1,0), (2,1,0)] ]

/-- Game-mode constants from the source. -/
def STATE_LOADING : Nat := 0

def STATE_MAIN_MENU : Nat := 1

def STATE_PLAYING : Nat := 2

def STATE_PAUSED : Nat := 3

def STATE_GAME_OVER : Nat := 4

/-- The playfield: `grid[x][y][z]`, `none` = empty, `some c` = filled. -/
abbrev Grid := List (List (List (Option Color)))

/-- `reset_grid`: a fresh 8 x 20 x 8 grid of empty cells. -/
def reset_grid : Grid :=
  List.replicate GRID_SIZE.1
    (List.replicate GRID_SIZE.2.1 (List.replicate GRID_SIZE.2.2 none))

/-- Read `grid[x][y][z]` (empty outside the stored lists). -/
def cell (g : Grid) (x y z : Nat) : Option Color :=
  ((g.getD x []).getD y []).getD z none

/-- Write `grid[x][y][z] = v` (no-op outside the stored lists, like
`List.set`; the source only writes in-bounds indices). -/
def set_cell (g : Grid) (x y z : Nat) (v : Option Color) : Grid :=
  g.set x ((g.getD x []).set y (((g.getD x []).getD y []).set z v))

/-- `GameState.check_collision`: true iff some absolute cell of `shape`
anchored at `position` is out of bounds or hits a filled grid cell, mirroring
the early-return loop of the source. -/
def check_collision (g : Grid) (shape : List V3) (position : V3) : Bool :=
  shape.any fun o =>
    let x := position.1 + o.1
    let y := position.2.1 + o.2.1
    let z := position.2.2 + o.2.2
    decide (x < 0) || decide ((GRID_SIZE.1 : Int) ≤ x) ||
    decide (y < 0) || decide ((GRID_SIZE.2.1 : Int) ≤ y) ||
    decide (z < 0) || decide ((GRID_SIZE.2.2 : Int) ≤ z) ||
    (cell g x.toNat y.toNat z.toNat).isSome

/-- A piece: shape offsets, anchor position, color (`Tetromino`). -/
structure Tetromino where
  shape : List V3
  position : V3
  color : Color
  deriving DecidableEq, Repr

/-- The fixed spawn anchor: `[GRID_SIZE[0]//2, GRID_SIZE[1]-3, GRID_SIZE[2]//2]`. -/
def spawn_position : V3 :=
  ((GRID_SIZE.1 / 2 : Nat), ((GRID_SIZE.2.1 : Int) - 3), (GRID_SIZE.2.2 / 2 : Nat))

/-- `Tetromino.move(dx, dy, dz)`: unconditional anchor translation. -/
def Tetromino.move (p : Tetromino) (d : V3) : Tetromino :=
  { p with position := (p.position.1 + d.1, p.position.2.1 + d.2.1, p.position.2.2 + d.2.2) }

/-- `Tetromino.rotate(axis)` on the offset list: 90 degrees about the axis
(0 = X, 1 = Y, 2 = Z), right-hand rule on the local offset frame. -/
def rotate (axis : Fin 3) (shape : List V3) : List V3 :=
  shape.map fun o =>
    match axis with
    | 0 => (o.1, -o.2.2, o.2.1)
    | 1 => (-o.2.2, o.2.1, o.1)
    | 2 => (-o.2.1, o.1, o.2.2)

/-- Is layer `y` full?  Mirrors the doubly-nested occupancy scan with early
break of `lock_piece_and_clear`. -/
def layer_full (g : Grid) (y : Nat) : Bool :=
  (List.range GRID_SIZE.1).all fun x =>
    (List.range GRID_SIZE.2.2).all fun z => (cell g x y z).isSome

/-- Innermost loop of the layer shift: for each `z` in `zs`, copy the cell of
layer `my + 1` at `(x, z)` into layer `my` (reading the partially updated
grid, as the source does). -/
def copy_z_loop (my x : Nat) (g : Grid) (zs : List Nat) : Grid :=
  zs.foldl (fun g z => set_cell g x my z (cell g x (my + 1) z)) g

/-- Middle loop of the layer shift: over each `x` in `xs`, run the `z` loop. -/
def copy_x_loop (my : Nat) (g : Grid) (xs : List Nat) : Grid :=
  xs.foldl (fun g x => copy_z_loop my x g (List.range GRID_SIZE.2.2)) g

/-- One `move_y` iteration: copy layer `my + 1` down into layer `my`. -/
def copy_layer_down (g : Grid) (my : Nat) : Grid :=
  copy_x_loop my g (List.range GRID_SIZE.1)

/-- The `move_y` loop over the given layer indices. -/
def copy_my_loop (g : Grid) (mys : List Nat) : Grid :=
  mys.foldl copy_layer_down g

/-- Innermost loop of the top-layer clear. -/
def clear_z_loop (x : Nat) (g : Grid) (zs : List Nat) : Grid :=
  zs.foldl (fun g z => set_cell g x (GRID_SIZE.2.1 - 1) z none) g

/-- Clear the top layer (`grid[x][GRID_SIZE[1]-1][z] = None` for all x, z). -/
def clear_top_layer (g : Grid) : Grid :=
  (List.range GRID_SIZE.1).foldl (fun g x => clear_z_loop x g (List.range GRID_SIZE.2.2)) g

/-- The layer shift performed when layer `y` is full: for `move_y` from `y`
to `GRID_SIZE[1]-2`, copy layer `move_y+1` into layer `move_y` cell by cell,
then clear the top layer. -/
def shift_layers_down (g : Grid) (y : Nat) : Grid :=
  clear_top_layer (copy_my_loop g (List.range' y (GRID_SIZE.2.1 - 1 - y)))

/-- The `while y < GRID_SIZE[1]` loop of `lock_piece_and_clear`: clears full
layers bottom-up, re-examining the same `y` after a clear, advancing `y`
otherwise; returns (layers cleared, resulting grid).  `fuel` bounds the
iteration count; the loop runs at most 20 + 20 iterations on an 8 x 20 x 8
grid (each step either advances `y` or removes a full 64-cell layer), so any
fuel ≥ 40 computes the loop to completion. -/
def clear_loop : Nat → Nat → Grid → Nat × Grid
  | 0, _, g => (0, g)
  | fuel + 1, y, g =>
    if y < GRID_SIZE.2.1 then
      if layer_full g y then
        let r := clear_loop fuel y (shift_layers_down g y)
        (r.1 + 1, r.2)
      else
        clear_loop fuel (y + 1) g
    else
      (0, g)

/-- The full layer-clearing phase, started at `y = 0` with ample fuel. -/
def clear_full_layers (g : Grid) : Nat × Grid :=
  clear_loop 1280 0 g

/-- The locking phase of `lock_piece_and_clear`: write the piece's color into
every in-bounds cell it occupies, silently skipping out-of-bounds cells. -/
def lock_shape (p : Tetromino) (g : Grid) : Grid :=
  p.shape.foldl
    (fun g o =>
      let x := p.position.1 + o.1
      let y := p.position.2.1 + o.2.1
      let z := p.position.2.2 + o.2.2
      if 0 ≤ x ∧ x < (GRID_SIZE.1 : Int) ∧ 0 ≤ y ∧ y < (GRID_SIZE.2.1 : Int) ∧
          0 ≤ z ∧ z < (GRID_SIZE.2.2 : Int) then
        set_cell g x.toNat y.toNat z.toNat (some p.color)
      else g)
    g

/-- `scores.get(layers_cleared, layers_cleared * 100)`: the clear-bonus
dictionary lookup with its default. -/
def layer_scores_get (lc : Nat) : Nat :=
  match lc with
  | 1 => 100
  | 2 => 300
  | 3 => 500
  | 4 => 800
  | _ => lc * 100

/-- The score update of `lock_piece_and_clear`: clear bonus (only when at
least one layer cleared), then 10 points per block of the locked piece. -/
def updated_score (score layers_cleared num_blocks : Nat) : Nat :=
  (if layers_cleared > 0 then score + layer_scores_get layers_cleared else score) +
    num_blocks * 10

/-- The mutable game-state (`GameState`): grid, score, game-over flag, the
three piece slots and the piece bag. -/
structure GameState where
  grid : Grid
  score : Nat
  game_over : Bool
  current_piece : Option Tetromino
  next_piece : Option Tetromino
  last_piece : Option Tetromino
  piece_bag : List Nat
  deriving DecidableEq, Repr

/-- Python `list.pop()`: remove and return the LAST element; `none` where
Python raises `IndexError` on an empty list. -/
def pop_last (l : List Nat) : Option (Nat × List Nat) :=
  match l.getLast? with
  | none => none
  | some a => some (a, l.dropLast)

/-- Build the piece for a drawn bag index: shape and color from the catalog,
anchor at the fixed spawn position (a fresh `Tetromino()` is constructed at
the spawn anchor and its shape/color immediately overwritten). -/
def mk_piece (idx : Nat) : Option Tetromino :=
  match SHAPES_3D.get? idx, CYBER_COLORS.get? idx with
  | some s, some c => some ⟨s, spawn_position, c⟩
  | _, _ => none

/-- `GameState.spawn_new_piece`: refill the bag with the shuffled permutation
`refill` if it is empty, then promote next to current (drawing two pieces on
the very first spawn), draw a fresh next piece, and set `game_over` if the
new current piece collides immediately.  `none` models the `IndexError` of a
`pop()` on an exhausted bag (and the attribute error of a missing next
piece). -/
def spawn_new_piece (refill : List Nat) (st : GameState) : Option GameState :=
  let bag := if st.piece_bag = [] then refill else st.piece_bag
  match st.current_piece with
  | none =>
    match pop_last bag with
    | none => none
    | some (i1, bag1) =>
      match mk_piece i1 with
      | none => none
      | some cur =>
        match pop_last bag1 with
        | none => none
        | some (i2, bag2) =>
          match mk_piece i2 with
          | none => none
          | some nxt =>
            some { st with
              current_piece := some cur
              next_piece := some nxt
              piece_bag := bag2
              game_over := st.game_over ||
                check_collision st.grid cur.shape cur.position }
  | some _ =>
    match st.next_piece with
    | none => none
    | some nxt =>
      match pop_last bag with
      | none => none
      | some (i1, bag1) =>
        match mk_piece i1 with
        | none => none
        | some np =>
          some { st with
            current_piece := some nxt
            next_piece := some np
            piece_bag := bag1
            game_over := st.game_over ||
              check_collision st.grid nxt.shape nxt.position }

/-- `GameState.lock_piece_and_clear`: lock the current piece into the grid,
snapshot it as `last_piece`, clear full layers, update the score, then spawn
the next piece. -/
def lock_piece_and_clear (refill : List Nat) (st : GameState) : Option GameState :=
  match st.current_piece with
  | none => none
  | some p =>
    let g1 := lock_shape p st.grid
    let r := clear_full_layers g1
    spawn_new_piece refill
      { st with
        grid := r.2
        last_piece := some p
        score := updated_score st.score r.1 p.shape.length }

/-- One gravity step from the game loop: move the current piece down one
cell; on collision restore the position and lock. -/
def gravity_step (refill : List Nat) (st : GameState) (p : Tetromino) : Option GameState :=
  let p1 := p.move (0, -1, 0)
  if check_collision st.grid p1.shape p1.position then
    lock_piece_and_clear refill { st with current_piece := some p }
  else
    some { st with current_piece := some p1 }

/-- The state touched by one `game_loop` tick: mode, game state and the fall
accumulator `time_accumulator_fall`. -/
structure LoopState where
  mode : Nat
  gs : GameState
  acc : Nat
  deriving DecidableEq, Repr

/-- One `game_loop` tick with elapsed time `delta` (ms): in playing mode with
the game not over, add `delta` to the fall accumulator; if it reaches
`FALL_INTERVAL_MS`, subtract the interval ONCE and apply ONE gravity step
(entering game-over mode if that step's locking spawned into a collision). -/
def game_loop_tick (refill : List Nat) (ls : LoopState) (delta : Nat) : Option LoopState :=
  if ls.mode = STATE_PLAYING ∧ ls.gs.game_over = false then
    let acc := ls.acc + delta
    if FALL_INTERVAL_MS ≤ acc then
      match ls.gs.current_piece with
      | none => some ⟨ls.mode, ls.gs, acc - FALL_INTERVAL_MS⟩
      | some p =>
        (gravity_step refill ls.gs p).map fun gs1 =>
          ⟨if gs1.game_over then STATE_GAME_OVER else ls.mode, gs1, acc - FALL_INTERVAL_MS⟩
    else
      some ⟨ls.mode, ls.gs, acc⟩
  else
    some ls

/-- The speculative lateral move of `special_keys`: move by `d`, and on
collision move back by `-d`. -/
def try_move (g : Grid) (p : Tetromino) (d : V3) : Tetromino :=
  let p1 := p.move d
  if check_collision g p1.shape p1.position then
    p1.move (-d.1, -d.2.1, -d.2.2)
  else p1

/-- The speculative rotation of the `keyboard` handler: apply `n` rotations
about `axis` (n = 1 for Q and R, n = 3 for E), and on collision restore the
saved shape and position. -/
def try_rotate (g : Grid) (p : Tetromino) (axis : Fin 3) (n : Nat) : Tetromino :=
  let p1 := { p with shape := (rotate axis)^[n] p.shape }
  if check_collision g p1.shape p1.position then
    { p1 with position := p.position, shape := p.shape }
  else p1

/-- The two-stage speculative move of `handle_wasd`: try the primary
direction; on collision revert and try the alternative direction; on a second
collision revert again. -/
def try_move_wasd (g : Grid) (p : Tetromino) (d alt : V3) : Tetromino :=
  let p1 := p.move d
  if check_collision g p1.shape p1.position then
    let p2 := (p1.move (-d.1, -d.2.1, -d.2.2)).move alt
    if check_collision g p2.shape p2.position then
      p2.move (-alt.1, -alt.2.1, -alt.2.2)
    else p2
  else p1

/-- The sequence of bag draws: `n` successive `pop()`s (as performed by
successive `spawn_new_piece` calls between refills), returning the indices in
draw order and the remaining bag; `none` if some pop hits an empty bag. -/
def draw_n : Nat → List Nat → Option (List Nat × List Nat)
  | 0, bag => some ([], bag)
  | n + 1, bag =>
    match pop_last bag with
    | none => none
    | some (i, rest) =>
      match draw_n n rest with
      | none => none
      | some (is, fin) => some (i :: is, fin)

/-! ### Well-formedness, a functional grid view, and concrete test data -/

/-- The grid has its constructed dimensions: 8 planes of 20 rows of 8 cells. -/
def grid_wf (g : Grid) : Prop :=
  g.length = GRID_SIZE.1 ∧
    ∀ pl ∈ g, pl.length = GRID_SIZE.2.1 ∧ ∀ r ∈ pl, r.length = GRID_SIZE.2.2

/-- A functional view of a grid, for reasoning and cheap evaluation. -/
abbrev FGrid := Nat → Nat → Nat → Option Color

/-- `g` and `f` agree on every in-bounds cell. -/
def agrees (g : Grid) (f : FGrid) : Prop :=
  ∀ a, a < GRID_SIZE.1 → ∀ b, b < GRID_SIZE.2.1 → ∀ c, c < GRID_SIZE.2.2 →
    cell g a b c = f a b c

/-- A grid materialized from a functional view. -/
def build_grid (f : FGrid) : Grid :=
  (List.range GRID_SIZE.1).map fun x =>
    (List.range GRID_SIZE.2.1).map fun y =>
      (List.range GRID_SIZE.2.2).map fun z => f x y z

/-- Functional mirror of `layer_full`. -/
def ffull (f : FGrid) (y : Nat) : Bool :=
  (List.range GRID_SIZE.1).all fun x =>
    (List.range GRID_SIZE.2.2).all fun z => (f x y z).isSome

/-- Functional mirror of `shift_layers_down`. -/
def fshift (f : FGrid) (y : Nat) : FGrid := fun a b c =>
  if b = GRID_SIZE.2.1 - 1 then none
  else if y ≤ b then f a (b + 1) c
  else f a b c

/-- Functional mirror of `clear_loop`. -/
def floop : Nat → Nat → FGrid → Nat × FGrid
  | 0, _, f => (0, f)
  | fuel + 1, y, f =>
    if y < GRID_SIZE.2.1 then
      if ffull f y then
        let r := floop fuel y (fshift f y)
        (r.1 + 1, r.2)
      else
        floop fuel (y + 1) f
    else
      (0, f)

/-- Clear-bonus table exactly as the specification words it: 100/300/500/800
for 1/2/3/4 cleared layers, 100 per layer beyond 4, nothing for 0. -/
def clear_bonus_spec (lc : Nat) : Nat :=
  if lc = 0 then 0
  else if lc = 1 then 100
  else if lc = 2 then 300
  else if lc = 3 then 500
  else if lc = 4 then 800
  else lc * 100

/-! ### Concrete data for the witness scenarios -/

/-- Cell function of the layer-clear test grid: layers 3 and 5 fully
occupied, layers 0, 6 and 7 partially occupied, the rest empty. -/
def f2 (x y z : Nat) : Option Color :=
  if y = 3 ∨ y = 5 then some (0, 1, 1)
  else if y = 0 ∧ x = 0 ∧ z = 0 then some (1, 1, 0)
  else if y = 6 ∧ x = 2 ∧ z = 3 then some (1, 0, 0)
  else if y = 7 ∧ x = 5 ∧ z = 5 then some (1, 1, 0)
  else none

/-- The layer-clear test grid itself. -/
def G2 : Grid := build_grid f2

/-- The I-piece at the spawn anchor. -/
def pieceI : Tetromino :=
  ⟨SHAPES_3D.getD 0 [], spawn_position, CYBER_COLORS.getD 0 (0, 0, 0)⟩

/-- A fresh playing state with the I-piece falling over an empty grid. -/
def gs0 : GameState := ⟨reset_grid, 0, false, some pieceI, some pieceI, none, [0, 1]⟩

/-- The corresponding loop state, playing mode, empty fall accumulator. -/
def ls0 : LoopState := ⟨STATE_PLAYING, gs0, 0⟩

/-- A full shuffled bag (one permutation of the 7 indices). -/
def refill0 : List Nat := [6, 5, 4, 3, 2, 1, 0]

/-- The state after locking the I-piece of `gs0` where it stands. -/
def st3 : GameState := (lock_piece_and_clear refill0 gs0).getD gs0

/-- A game-restart state (no current piece) whose leftover bag holds a single
index: the state on which the very first spawn's second pop fails. -/
def st5 : GameState := ⟨reset_grid, 0, false, none, none, none, [3]⟩

/-- A grid whose only filled cell is the spawn anchor (4, 17, 4). -/
def g8 : Grid := set_cell reset_grid 4 17 4 (some (1, 0, 0))

/-- A state about to promote a next piece into the blocked spawn anchor. -/
def st8 : GameState := ⟨g8, 0, false, some pieceI, some pieceI, none, [2]⟩

/-- The state produced by spawning on `st8` (the promoted piece collides). -/
def st8p : GameState := (spawn_new_piece [] st8).getD st8

/-- A loop state already in game over. -/
def ls8 : LoopState := ⟨STATE_PLAYING, { gs0 with game_over := true }, 321⟩

/-! ## Infrastructure lemmas -/

theorem getD_set_self {α : Type} (l : List α) (i : Nat) (a d : α) (h : i < l.length) :
    (l.set i a).getD i d = a := by
  simp [List.getD_eq_getElem?_getD, List.getElem?_set_self', List.getElem?_eq_getElem h]

theorem getD_set_ne {α : Type} (l : List α) {i j : Nat} (h : i ≠ j) (a d : α) :
    (l.set i a).getD j d = l.getD j d := by
  simp [List.getD_eq_getElem?_getD, List.getElem?_set_ne h]

theorem getD_mem {α : Type} (l : List α) (i : Nat) (d : α) (h : i < l.length) :
    l.getD i d ∈ l := by
  rw [List.getD_eq_getElem?_getD, List.getElem?_eq_getElem h]
  exact List.getElem_mem h

theorem grid_wf_set_cell {g : Grid} (hw : grid_wf g) (a b c : Nat)
    (ha : a < GRID_SIZE.1) (hb : b < GRID_SIZE.2.1) (hc : c < GRID_SIZE.2.2)
    (v : Option Color) : grid_wf (set_cell g a b c v) := by
  obtain ⟨h1, h2⟩ := hw
  have hag : a < g.length := by omega
  obtain ⟨hpl, hrow⟩ := h2 _ (getD_mem g a [] hag)
  refine ⟨by simpa [set_cell] using h1, ?_⟩
  intro pl hpl2
  rcases List.mem_or_eq_of_mem_set hpl2 with h | rfl
  · exact h2 pl h
  · refine ⟨by simpa using hpl, ?_⟩
    intro r hr2
    rcases List.mem_or_eq_of_mem_set hr2 with h | rfl
    · exact hrow r h
    · have hbp : b < (g.getD a []).length := by omega
      simpa using hrow _ (getD_mem _ b [] hbp)

theorem cell_set_cell {g : Grid} (hw : grid_wf g) (a b c : Nat)
    (ha : a < GRID_SIZE.1) (hb : b < GRID_SIZE.2.1) (hc : c < GRID_SIZE.2.2)
    (v : Option Color) (x y z : Nat) :
    cell (set_cell g a b c v) x y z =
      if a = x ∧ b = y ∧ c = z then v else cell g x y z := by
  obtain ⟨h1, h2⟩ := hw
  have hag : a < g.length := by omega
  obtain ⟨hpl, hrow⟩ := h2 _ (getD_mem g a [] hag)
  have hbp : b < (g.getD a []).length := by omega
  have hcr : c < ((g.getD a []).getD b []).length := by
    have := hrow _ (getD_mem _ b [] hbp)
    omega
  by_cases hx : a = x
  · subst hx
    rw [cell, set_cell, getD_set_self _ _ _ _ hag]
    by_cases hy : b = y
    · subst hy
      rw [getD_set_self _ _ _ _ hbp]
      by_cases hz : c = z
      · subst hz
        rw [getD_set_self _ _ _ _ hcr]
        simp [cell]
      · rw [getD_set_ne _ hz]
        simp [cell, hz]
    · rw [getD_set_ne _ hy]
      simp [cell, hy]
  · rw [cell, set_cell, getD_set_ne _ hx]
    simp [cell, hx]

theorem grid_wf_reset : grid_wf reset_grid := by
  refine ⟨by simp [reset_grid], ?_⟩
  intro pl hpl
  simp only [reset_grid] at hpl
  rw [List.eq_of_mem_replicate hpl]
  refine ⟨by simp, ?_⟩
  intro r hr
  rw [List.eq_of_mem_replicate hr]
  simp

theorem grid_wf_build_grid (f : FGrid) : grid_wf (build_grid f) := by
  refine ⟨by simp [build_grid], ?_⟩
  intro pl hpl
  simp only [build_grid, List.mem_map, List.mem_range] at hpl
  obtain ⟨x, -, rfl⟩ := hpl
  refine ⟨by simp, ?_⟩
  intro r hr
  simp only [List.mem_map, List.mem_range] at hr
  obtain ⟨y, -, rfl⟩ := hr
  simp

theorem cell_build_grid (f : FGrid) {x y z : Nat}
    (hx : x < GRID_SIZE.1) (hy : y < GRID_SIZE.2.1) (hz : z < GRID_SIZE.2.2) :
    cell (build_grid f) x y z = f x y z := by
  simp [cell, build_grid, List.getD_eq_getElem?_getD, List.getElem?_map,
    List.getElem?_range, hx, hy, hz]

theorem grid_wf_copy_z_loop {g : Grid} (hw : grid_wf g) {my x : Nat} {zs : List Nat}
    (hx : x < GRID_SIZE.1) (hmy : my < GRID_SIZE.2.1) (hzs : ∀ z ∈ zs, z < GRID_SIZE.2.2) :
    grid_wf (copy_z_loop my x g zs) := by
  induction zs generalizing g with
  | nil => exact hw
  | cons z zs ih =>
    exact ih (grid_wf_set_cell hw x my z hx hmy (hzs z (by simp)) _)
      (fun z hz => hzs z (by simp [hz]))

theorem cell_copy_z_loop {g : Grid} (hw : grid_wf g) {my x : Nat} {zs : List Nat}
    (hx : x < GRID_SIZE.1) (hmy : my + 1 < GRID_SIZE.2.1)
    (hzs : ∀ z ∈ zs, z < GRID_SIZE.2.2) (a b c : Nat) :
    cell (copy_z_loop my x g zs) a b c =
      if a = x ∧ b = my ∧ c ∈ zs then cell g x (my + 1) c else cell g a b c := by
  induction zs generalizing g with
  | nil => simp [copy_z_loop]
  | cons z zs ih =>
    have hz : z < GRID_SIZE.2.2 := hzs z (by simp)
    have hw' := grid_wf_set_cell hw x my z hx (by omega) hz (cell g x (my + 1) z)
    rw [copy_z_loop, List.foldl_cons]
    rw [show ∀ g', zs.foldl (fun g z => set_cell g x my z (cell g x (my + 1) z)) g' =
        copy_z_loop my x g' zs from fun _ => rfl]
    rw [ih hw' (fun z hz => hzs z (by simp [hz]))]
    rw [cell_set_cell hw x my z hx (by omega) hz _ x (my + 1) c]
    rw [cell_set_cell hw x my z hx (by omega) hz _ a b c]
    by_cases h1 : a = x ∧ b = my
    · by_cases h2 : c ∈ zs
      · have hout : a = x ∧ b = my ∧ c ∈ zs := ⟨h1.1, h1.2, h2⟩
        have hin : ¬(x = x ∧ my = my + 1 ∧ z = c) := by omega
        have hrhs : a = x ∧ b = my ∧ c ∈ z :: zs := ⟨h1.1, h1.2, List.mem_cons_of_mem z h2⟩
        rw [if_pos hout, if_neg hin, if_pos hrhs]
      · by_cases h3 : z = c
        · have hout : ¬(a = x ∧ b = my ∧ c ∈ zs) := fun h => h2 h.2.2
          have hin : x = a ∧ my = b ∧ z = c := ⟨h1.1.symm, h1.2.symm, h3⟩
          have hrhs : a = x ∧ b = my ∧ c ∈ z :: zs := ⟨h1.1, h1.2, by simp [h3.symm]⟩
          rw [if_neg hout, if_pos hin, if_pos hrhs, h3]
        · have hout : ¬(a = x ∧ b = my ∧ c ∈ zs) := fun h => h2 h.2.2
          have hin : ¬(x = a ∧ my = b ∧ z = c) := fun h => h3 h.2.2
          have hrhs : ¬(a = x ∧ b = my ∧ c ∈ z :: zs) := by
            intro h
            rcases List.mem_cons.mp h.2.2 with hc1 | hc2
            · exact h3 hc1.symm
            · exact h2 hc2
          rw [if_neg hout, if_neg hin, if_neg hrhs]
    · have hout : ¬(a = x ∧ b = my ∧ c ∈ zs) := fun h => h1 ⟨h.1, h.2.1⟩
      have hin : ¬(x = a ∧ my = b ∧ z = c) := fun h => h1 ⟨h.1.symm, h.2.1.symm⟩
      have hrhs : ¬(a = x ∧ b = my ∧ c ∈ z :: zs) := fun h => h1 ⟨h.1, h.2.1⟩
      rw [if_neg hout, if_neg hin, if_neg hrhs]

theorem grid_wf_copy_x_loop {g : Grid} (hw : grid_wf g) {my : Nat} {xs : List Nat}
    (hmy : my < GRID_SIZE.2.1) (hxs : ∀ x ∈ xs, x < GRID_SIZE.1) :
    grid_wf (copy_x_loop my g xs) := by
  induction xs generalizing g with
  | nil => exact hw
  | cons x xs ih =>
    exact ih (grid_wf_copy_z_loop hw (hxs x (by simp)) hmy (by simp [List.mem_range]))
      (fun x hx => hxs x (by simp [hx]))

theorem cell_copy_x_loop {g : Grid} (hw : grid_wf g) {my : Nat} {xs : List Nat}
    (hmy : my + 1 < GRID_SIZE.2.1) (hxs : ∀ x ∈ xs, x < GRID_SIZE.1) (a b c : Nat) :
    cell (copy_x_loop my g xs) a b c =
      if a ∈ xs ∧ b = my ∧ c < GRID_SIZE.2.2 then cell g a (my + 1) c
      else cell g a b c := by
  induction xs generalizing g with
  | nil => simp [copy_x_loop]
  | cons x xs ih =>
    have hx : x < GRID_SIZE.1 := hxs x (by simp)
    have hw' : grid_wf (copy_z_loop my x g (List.range GRID_SIZE.2.2)) :=
      grid_wf_copy_z_loop hw hx (by omega) (fun z hz => List.mem_range.mp hz)
    rw [copy_x_loop, List.foldl_cons]
    rw [show ∀ g', xs.foldl (fun g x => copy_z_loop my x g (List.range GRID_SIZE.2.2)) g' =
        copy_x_loop my g' xs from fun _ => rfl]
    rw [ih hw' (fun x hx => hxs x (by simp [hx]))]
    rw [cell_copy_z_loop hw hx hmy (fun z hz => List.mem_range.mp hz) a (my + 1) c]
    rw [cell_copy_z_loop hw hx hmy (fun z hz => List.mem_range.mp hz) a b c]
    simp only [List.mem_range, List.mem_cons]
    by_cases hb : b = my ∧ c < GRID_SIZE.2.2
    · by_cases haxs : a ∈ xs
      · have hout : a ∈ xs ∧ b = my ∧ c < GRID_SIZE.2.2 := ⟨haxs, hb.1, hb.2⟩
        have hin : ¬(a = x ∧ my + 1 = my ∧ c < GRID_SIZE.2.2) := by omega
        have hrhs : (a = x ∨ a ∈ xs) ∧ b = my ∧ c < GRID_SIZE.2.2 := ⟨Or.inr haxs, hb⟩
        rw [if_pos hout, if_neg hin, if_pos hrhs]
      · by_cases hax : a = x
        · have hout : ¬(a ∈ xs ∧ b = my ∧ c < GRID_SIZE.2.2) := fun h => haxs h.1
          have hin : a = x ∧ b = my ∧ c < GRID_SIZE.2.2 := ⟨hax, hb.1, hb.2⟩
          have hrhs : (a = x ∨ a ∈ xs) ∧ b = my ∧ c < GRID_SIZE.2.2 := ⟨Or.inl hax, hb⟩
          rw [if_neg hout, if_pos hin, if_pos hrhs, hax]
        · have hout : ¬(a ∈ xs ∧ b = my ∧ c < GRID_SIZE.2.2) := fun h => haxs h.1
          have hin : ¬(a = x ∧ b = my ∧ c < GRID_SIZE.2.2) := fun h => hax h.1
          have hrhs : ¬((a = x ∨ a ∈ xs) ∧ b = my ∧ c < GRID_SIZE.2.2) := by
            rintro ⟨hx1 | hx2, h⟩
            · exact hax hx1
            · exact haxs hx2
          rw [if_neg hout, if_neg hin, if_neg hrhs]
    · have hout : ¬(a ∈ xs ∧ b = my ∧ c < GRID_SIZE.2.2) := fun h => hb ⟨h.2.1, h.2.2⟩
      have hin : ¬(a = x ∧ b = my ∧ c < GRID_SIZE.2.2) := fun h => hb ⟨h.2.1, h.2.2⟩
      have hrhs : ¬((a = x ∨ a ∈ xs) ∧ b = my ∧ c < GRID_SIZE.2.2) := fun h => hb h.2
      rw [if_neg hout, if_neg hin, if_neg hrhs]

theorem grid_wf_copy_layer_down {g : Grid} (hw : grid_wf g) {my : Nat}
    (hmy : my < GRID_SIZE.2.1) : grid_wf (copy_layer_down g my) :=
  grid_wf_copy_x_loop hw hmy (fun x hx => List.mem_range.mp hx)

theorem cell_copy_layer_down {g : Grid} (hw : grid_wf g) {my : Nat}
    (hmy : my + 1 < GRID_SIZE.2.1) {a c : Nat} (ha : a < GRID_SIZE.1)
    (hc : c < GRID_SIZE.2.2) (b : Nat) :
    cell (copy_layer_down g my) a b c =
      if b = my then cell g a (my + 1) c else cell g a b c := by
  rw [copy_layer_down, cell_copy_x_loop hw hmy (fun x hx => List.mem_range.mp hx)]
  by_cases hb : b = my
  · rw [if_pos ⟨List.mem_range.mpr ha, hb, hc⟩, if_pos hb]
  · rw [if_neg (fun h => hb h.2.1), if_neg hb]

theorem copy_my_loop_cons (g : Grid) (my : Nat) (mys : List Nat) :
    copy_my_loop g (my :: mys) = copy_my_loop (copy_layer_down g my) mys := by
  rw [copy_my_loop, copy_my_loop, List.foldl_cons]

theorem grid_wf_copy_my_loop {g : Grid} (hw : grid_wf g) {mys : List Nat}
    (hmys : ∀ my ∈ mys, my < GRID_SIZE.2.1) : grid_wf (copy_my_loop g mys) := by
  induction mys generalizing g with
  | nil => exact hw
  | cons my mys ih =>
    have hstep : grid_wf (copy_layer_down g my) :=
      grid_wf_copy_layer_down hw (hmys my (List.mem_cons_self my mys))
    rw [copy_my_loop_cons]
    exact ih hstep (fun m hm => hmys m (List.mem_cons_of_mem my hm))

theorem cell_copy_my_loop {g : Grid} (hw : grid_wf g) {y n : Nat}
    (hyn : y + n + 1 ≤ GRID_SIZE.2.1) {a c : Nat} (ha : a < GRID_SIZE.1)
    (hc : c < GRID_SIZE.2.2) (b : Nat) :
    cell (copy_my_loop g (List.range' y n)) a b c =
      if y ≤ b ∧ b < y + n then cell g a (b + 1) c else cell g a b c := by
  induction n generalizing y g with
  | zero =>
    rw [if_neg (show ¬(y ≤ b ∧ b < y + 0) by omega)]
    rfl
  | succ n ih =>
    have hy1 : y + 1 < GRID_SIZE.2.1 := by omega
    have hw' := grid_wf_copy_layer_down hw (show y < GRID_SIZE.2.1 by omega)
    rw [List.range'_succ, copy_my_loop, List.foldl_cons]
    rw [show ∀ g', (List.range' (y + 1) n).foldl copy_layer_down g' =
        copy_my_loop g' (List.range' (y + 1) n) from fun _ => rfl]
    rw [ih hw' (by omega)]
    by_cases h1 : y + 1 ≤ b ∧ b < y + 1 + n
    · rw [if_pos h1, cell_copy_layer_down hw hy1 ha hc,
        if_neg (show ¬(b + 1 = y) by omega), if_pos (by omega)]
    · rw [if_neg h1, cell_copy_layer_down hw hy1 ha hc]
      by_cases h2 : b = y
      · rw [if_pos h2, if_pos (by omega), h2]
      · rw [if_neg h2, if_neg (by omega)]

theorem grid_wf_clear_z_loop {g : Grid} (hw : grid_wf g) {x : Nat} {zs : List Nat}
    (hx : x < GRID_SIZE.1) (hzs : ∀ z ∈ zs, z < GRID_SIZE.2.2) :
    grid_wf (clear_z_loop x g zs) := by
  induction zs generalizing g with
  | nil => exact hw
  | cons z zs ih =>
    exact ih (grid_wf_set_cell hw x (GRID_SIZE.2.1 - 1) z hx (by norm_num [GRID_SIZE]) (hzs z (by simp)) _)
      (fun z hz => hzs z (by simp [hz]))

theorem cell_clear_z_loop {g : Grid} (hw : grid_wf g) {x : Nat} {zs : List Nat}
    (hx : x < GRID_SIZE.1) (hzs : ∀ z ∈ zs, z < GRID_SIZE.2.2) (a b c : Nat) :
    cell (clear_z_loop x g zs) a b c =
      if a = x ∧ b = GRID_SIZE.2.1 - 1 ∧ c ∈ zs then none else cell g a b c := by
  induction zs generalizing g with
  | nil => simp [clear_z_loop]
  | cons z zs ih =>
    have hz : z < GRID_SIZE.2.2 := hzs z (by simp)
    have hw' := grid_wf_set_cell hw x (GRID_SIZE.2.1 - 1) z hx
      (show GRID_SIZE.2.1 - 1 < GRID_SIZE.2.1 by norm_num [GRID_SIZE]) hz
      (none : Option Color)
    rw [clear_z_loop, List.foldl_cons]
    rw [show ∀ g', zs.foldl (fun g z => set_cell g x (GRID_SIZE.2.1 - 1) z none) g' =
        clear_z_loop x g' zs from fun _ => rfl]
    rw [ih hw' (fun z hz => hzs z (by simp [hz]))]
    rw [cell_set_cell hw x (GRID_SIZE.2.1 - 1) z hx (by norm_num [GRID_SIZE]) hz _ a b c]
    by_cases h1 : a = x ∧ b = GRID_SIZE.2.1 - 1
    · by_cases h2 : c ∈ zs
      · have hout : a = x ∧ b = GRID_SIZE.2.1 - 1 ∧ c ∈ zs := ⟨h1.1, h1.2, h2⟩
        have hrhs : a = x ∧ b = GRID_SIZE.2.1 - 1 ∧ c ∈ z :: zs :=
          ⟨h1.1, h1.2, List.mem_cons_of_mem z h2⟩
        rw [if_pos hout, if_pos hrhs]
      · by_cases h3 : z = c
        · have hout : ¬(a = x ∧ b = GRID_SIZE.2.1 - 1 ∧ c ∈ zs) := fun h => h2 h.2.2
          have hin : x = a ∧ GRID_SIZE.2.1 - 1 = b ∧ z = c := ⟨h1.1.symm, h1.2.symm, h3⟩
          have hrhs : a = x ∧ b = GRID_SIZE.2.1 - 1 ∧ c ∈ z :: zs :=
            ⟨h1.1, h1.2, by simp [h3.symm]⟩
          rw [if_neg hout, if_pos hin, if_pos hrhs]
        · have hout : ¬(a = x ∧ b = GRID_SIZE.2.1 - 1 ∧ c ∈ zs) := fun h => h2 h.2.2
          have hin : ¬(x = a ∧ GRID_SIZE.2.1 - 1 = b ∧ z = c) := fun h => h3 h.2.2
          have hrhs : ¬(a = x ∧ b = GRID_SIZE.2.1 - 1 ∧ c ∈ z :: zs) := by
            intro h
            rcases List.mem_cons.mp h.2.2 with hc1 | hc2
            · exact h3 hc1.symm
            · exact h2 hc2
          rw [if_neg hout, if_neg hin, if_neg hrhs]
    · have hout : ¬(a = x ∧ b = GRID_SIZE.2.1 - 1 ∧ c ∈ zs) := fun h => h1 ⟨h.1, h.2.1⟩
      have hin : ¬(x = a ∧ GRID_SIZE.2.1 - 1 = b ∧ z = c) := fun h => h1 ⟨h.1.symm, h.2.1.symm⟩
      have hrhs : ¬(a = x ∧ b = GRID_SIZE.2.1 - 1 ∧ c ∈ z :: zs) := fun h => h1 ⟨h.1, h.2.1⟩
      rw [if_neg hout, if_neg hin, if_neg hrhs]

theorem grid_wf_clear_top_layer {g : Grid} (hw : grid_wf g) :
    grid_wf (clear_top_layer g) := by
  have key : ∀ (xs : List Nat), (∀ x ∈ xs, x < GRID_SIZE.1) → ∀ g : Grid, grid_wf g →
      grid_wf (xs.foldl (fun g x => clear_z_loop x g (List.range GRID_SIZE.2.2)) g) := by
    intro xs
    induction xs with
    | nil => intro _ g hg; exact hg
    | cons x xs ih =>
      intro hxs g hg
      exact ih (fun x hx => hxs x (by simp [hx]))
        _ (grid_wf_clear_z_loop hg (hxs x (by simp)) (fun z hz => List.mem_range.mp hz))
  exact key _ (fun x hx => List.mem_range.mp hx) g hw

theorem cell_clear_top_layer {g : Grid} (hw : grid_wf g) {a c : Nat}
    (ha : a < GRID_SIZE.1) (hc : c < GRID_SIZE.2.2) (b : Nat) :
    cell (clear_top_layer g) a b c =
      if b = GRID_SIZE.2.1 - 1 then none else cell g a b c := by
  have key : ∀ (xs : List Nat), (∀ x ∈ xs, x < GRID_SIZE.1) → ∀ g : Grid, grid_wf g →
      cell (xs.foldl (fun g x => clear_z_loop x g (List.range GRID_SIZE.2.2)) g) a b c =
        if a ∈ xs ∧ b = GRID_SIZE.2.1 - 1 then none else cell g a b c := by
    intro xs
    induction xs with
    | nil => intro _ g _; simp
    | cons x xs ih =>
      intro hxs g hg
      rw [List.foldl_cons,
        ih (fun x hx => hxs x (by simp [hx])) _
          (grid_wf_clear_z_loop hg (hxs x (by simp)) (fun z hz => List.mem_range.mp hz)),
        cell_clear_z_loop hg (hxs x (by simp)) (fun z hz => List.mem_range.mp hz)]
      simp only [List.mem_range, List.mem_cons, hc]
      by_cases hb : b = GRID_SIZE.2.1 - 1
      · subst hb
        by_cases hax : a = x
        · simp [hax, hc]
        · by_cases haxs : a ∈ xs
          · simp [hax, haxs]
          · simp [hax, haxs]
      · simp [hb]
  rw [clear_top_layer, key _ (fun x hx => List.mem_range.mp hx) g hw]
  simp [ha]

theorem grid_wf_shift_layers_down {g : Grid} (hw : grid_wf g) (y : Nat) :
    grid_wf (shift_layers_down g y) :=
  grid_wf_clear_top_layer (grid_wf_copy_my_loop hw
    (fun my hmy => by
      have := List.mem_range'_1.mp hmy
      omega))

theorem cell_shift_layers_down {g : Grid} (hw : grid_wf g) {y : Nat}
    (hy : y < GRID_SIZE.2.1) {a b c : Nat} (ha : a < GRID_SIZE.1)
    (hb : b < GRID_SIZE.2.1) (hc : c < GRID_SIZE.2.2) :
    cell (shift_layers_down g y) a b c =
      if b = GRID_SIZE.2.1 - 1 then none
      else if y ≤ b then cell g a (b + 1) c
      else cell g a b c := by
  have hwm : grid_wf (copy_my_loop g (List.range' y (GRID_SIZE.2.1 - 1 - y))) :=
    grid_wf_copy_my_loop hw
      (fun my hmy => by have := List.mem_range'_1.mp hmy; omega)
  rw [shift_layers_down, cell_clear_top_layer hwm ha hc,
    cell_copy_my_loop hw (by omega) ha hc]
  by_cases hbtop : b = GRID_SIZE.2.1 - 1
  · rw [if_pos hbtop, if_pos hbtop]
  · rw [if_neg hbtop, if_neg hbtop]
    by_cases hyb : y ≤ b
    · have hlt : b < y + (GRID_SIZE.2.1 - 1 - y) := by
        have e : GRID_SIZE.2.1 = 20 := rfl
        omega
      rw [if_pos ⟨hyb, hlt⟩, if_pos hyb]
    · rw [if_neg (fun h => hyb h.1), if_neg hyb]
theorem layer_full_iff (g : Grid) (y : Nat) :
    layer_full g y = true ↔
      ∀ x, x < GRID_SIZE.1 → ∀ z, z < GRID_SIZE.2.2 → (cell g x y z).isSome = true := by
  simp [layer_full, List.all_eq_true, List.mem_range]

theorem layer_full_agrees {g : Grid} {f : FGrid} (hag : agrees g f) {y : Nat}
    (hy : y < GRID_SIZE.2.1) : layer_full g y = ffull f y := by
  rw [Bool.eq_iff_iff, layer_full_iff]
  rw [show (ffull f y = true) ↔
      (∀ x, x < GRID_SIZE.1 → ∀ z, z < GRID_SIZE.2.2 → (f x y z).isSome = true) by
    simp [ffull, List.all_eq_true, List.mem_range]]
  constructor
  · intro h x hx z hz
    rw [← hag x hx y hy z hz]
    exact h x hx z hz
  · intro h x hx z hz
    rw [hag x hx y hy z hz]
    exact h x hx z hz

theorem shift_agrees {g : Grid} {f : FGrid} (hw : grid_wf g) (hag : agrees g f)
    {y : Nat} (hy : y < GRID_SIZE.2.1) :
    agrees (shift_layers_down g y) (fshift f y) := by
  intro a ha b hb c hc
  rw [cell_shift_layers_down hw hy ha hb hc, fshift]
  by_cases hbtop : b = GRID_SIZE.2.1 - 1
  · rw [if_pos hbtop, if_pos hbtop]
  · rw [if_neg hbtop, if_neg hbtop]
    by_cases hyb : y ≤ b
    · rw [if_pos hyb, if_pos hyb]
      exact hag a ha (b + 1) (by have e : GRID_SIZE.2.1 = 20 := rfl; omega) c hc
    · rw [if_neg hyb, if_neg hyb]
      exact hag a ha b hb c hc

theorem clear_loop_agrees {fuel : Nat} : ∀ {y : Nat} {g : Grid} {f : FGrid},
    grid_wf g → agrees g f →
      (clear_loop fuel y g).1 = (floop fuel y f).1 ∧
        agrees (clear_loop fuel y g).2 (floop fuel y f).2 := by
  induction fuel with
  | zero => intro y g f _ hag; exact ⟨rfl, hag⟩
  | succ fuel ih =>
    intro y g f hw hag
    rw [clear_loop, floop]
    by_cases hy : y < GRID_SIZE.2.1
    · rw [if_pos hy, if_pos hy, layer_full_agrees hag hy]
      by_cases hfull : ffull f y = true
      · rw [if_pos hfull, if_pos hfull]
        have hrec : (clear_loop fuel y (shift_layers_down g y)).1 =
              (floop fuel y (fshift f y)).1 ∧
            agrees (clear_loop fuel y (shift_layers_down g y)).2
              (floop fuel y (fshift f y)).2 :=
          ih (grid_wf_shift_layers_down hw y) (shift_agrees hw hag hy)
        refine ⟨?_, ?_⟩
        · show (clear_loop fuel y (shift_layers_down g y)).1 + 1 =
            (floop fuel y (fshift f y)).1 + 1
          rw [hrec.1]
        · show agrees (clear_loop fuel y (shift_layers_down g y)).2
            (floop fuel y (fshift f y)).2
          exact hrec.2
      · rw [if_neg hfull, if_neg hfull]
        exact ih hw hag
    · rw [if_neg hy, if_neg hy]
      exact ⟨rfl, hag⟩

theorem mk_piece_position {idx : Nat} {t : Tetromino} (h : mk_piece idx = some t) :
    t.position = spawn_position := by
  rw [mk_piece] at h
  rcases hs : SHAPES_3D.get? idx with _ | s
  · rw [hs] at h; simp at h
  · rcases hc : CYBER_COLORS.get? idx with _ | c
    · rw [hs, hc] at h; simp at h
    · rw [hs, hc] at h
      simp only [Option.bind_some, Option.some.injEq] at h
      rw [← h]

/-- Inversion principle for `spawn_new_piece`: what a successful spawn does to
each state component. -/
theorem spawn_inversion {refill : List Nat} {st st' : GameState}
    (h : spawn_new_piece refill st = some st') :
    st'.score = st.score ∧ st'.grid = st.grid ∧ st'.last_piece = st.last_piece ∧
      (∃ c, st'.current_piece = some c ∧
        st'.game_over = (st.game_over || check_collision st.grid c.shape c.position) ∧
        (st.current_piece = none → c.position = spawn_position) ∧
        (st.current_piece ≠ none → st.next_piece = some c)) ∧
      (st.current_piece ≠ none → st.piece_bag ≠ [] →
        st'.piece_bag = st.piece_bag.dropLast) := by
  rw [spawn_new_piece] at h
  split at h
  case h_1 hc =>
    split at h
    · exact absurd h (by simp)
    case h_2 i1 bag1 hp1 =>
      split at h
      · exact absurd h (by simp)
      case h_2 cur hm1 =>
        split at h
        · exact absurd h (by simp)
        case h_2 i2 bag2 hp2 =>
          split at h
          · exact absurd h (by simp)
          case h_2 nxt hm2 =>
            injection h with h
            subst h
            refine ⟨rfl, rfl, rfl, ⟨cur, rfl, rfl, ?_, ?_⟩, ?_⟩
            · intro _; exact mk_piece_position hm1
            · intro hne; exact absurd hc hne
            · intro hne; exact absurd hc hne
  case h_2 p hc =>
    split at h
    · exact absurd h (by simp)
    case h_2 nxt hn =>
      split at h
      · exact absurd h (by simp)
      case h_2 i1 bag1 hp1 =>
        split at h
        · exact absurd h (by simp)
        case h_2 np hm1 =>
          injection h with h
          subst h
          refine ⟨rfl, rfl, rfl, ⟨nxt, rfl, rfl, ?_, fun _ => hn⟩, ?_⟩
          · intro habs; rw [hc] at habs; exact absurd habs (by simp)
          · intro _ hbag
            rw [if_neg hbag, pop_last] at hp1
            rcases hl : st.piece_bag.getLast? with _ | a
            · rw [hl] at hp1; exact absurd hp1 (by simp)
            · rw [hl] at hp1
              injection hp1 with hp1
              simp only [Prod.mk.injEq] at hp1
              exact hp1.2.symm

/-- `n` pops drain an `n`-element bag in end-to-front order. -/
theorem draw_n_length : ∀ l : List Nat, draw_n l.length l = some (l.reverse, []) := by
  intro l
  induction l using List.reverseRecOn with
  | nil => rfl
  | append_singleton l a ih =>
    rw [show (l ++ [a]).length = l.length + 1 by simp, draw_n]
    rw [show pop_last (l ++ [a]) = some (a, l) by
      rw [pop_last, List.getLast?_concat]
      simp]
    simp [ih]

theorem agrees_G2 : agrees G2 f2 :=
  fun _ ha _ hb _ hc => cell_build_grid f2 ha hb hc

theorem floop_f2 : floop 1280 0 f2 = (2, fshift (fshift f2 3) 4) := rfl

theorem G2_bridge :
    (clear_loop 1280 0 G2).1 = (floop 1280 0 f2).1 ∧
      agrees (clear_loop 1280 0 G2).2 (floop 1280 0 f2).2 :=
  clear_loop_agrees (grid_wf_build_grid f2) agrees_G2

theorem ffull_f2 {y : Nat} (hy : y < GRID_SIZE.2.1) :
    ffull f2 y = true ↔ (y = 3 ∨ y = 5) := by
  constructor
  · intro h
    by_contra hno
    push_neg at hno
    rw [ffull] at h
    simp only [List.all_eq_true, List.mem_range] at h
    have h77 := h 7 (by norm_num [GRID_SIZE]) 7 (by norm_num [GRID_SIZE])
    simp [f2, hno.1, hno.2] at h77
  · rintro (rfl | rfl) <;>
      · rw [ffull]
        simp only [List.all_eq_true, List.mem_range]
        intro x _ z _
        simp [f2]

/-- C2: the layer-clearing step scans constant-`y` layers from `y = 0` up; a
layer is full iff every `(x, z)` cell in it is occupied; a full layer bumps
the count, shifts all layers above down one, clears the topmost layer and
re-examines the same `y`; a non-full layer advances `y`.  On the test grid
`G2` with exactly layers 3 and 5 full, the count is 2, layers above the
original layer 5 land two lower, and the top two layers end empty. -/
theorem c2_clear_full_layers :
    (∀ g y, layer_full g y = true ↔
      ∀ x, x < GRID_SIZE.1 → ∀ z, z < GRID_SIZE.2.2 → (cell g x y z).isSome = true)
    ∧ (∀ fuel y (g : Grid), y < GRID_SIZE.2.1 → layer_full g y = true →
        clear_loop (fuel + 1) y g =
          ((clear_loop fuel y (shift_layers_down g y)).1 + 1,
            (clear_loop fuel y (shift_layers_down g y)).2))
    ∧ (∀ fuel y (g : Grid), y < GRID_SIZE.2.1 → layer_full g y = false →
        clear_loop (fuel + 1) y g = clear_loop fuel (y + 1) g)
    ∧ (∀ (g : Grid), grid_wf g → ∀ y, y < GRID_SIZE.2.1 →
        ∀ a b c : Nat, a < GRID_SIZE.1 → b < GRID_SIZE.2.1 → c < GRID_SIZE.2.2 →
          cell (shift_layers_down g y) a b c =
            if b = GRID_SIZE.2.1 - 1 then none
            else if y ≤ b then cell g a (b + 1) c
            else cell g a b c)
    ∧ (∀ y, y < GRID_SIZE.2.1 → (layer_full G2 y = true ↔ (y = 3 ∨ y = 5)))
    ∧ (clear_full_layers G2).1 = 2
    ∧ (∀ y', 6 ≤ y' → y' < GRID_SIZE.2.1 →
        ∀ x, x < GRID_SIZE.1 → ∀ z, z < GRID_SIZE.2.2 →
          cell (clear_full_layers G2).2 x (y' - 2) z = cell G2 x y' z)
    ∧ (∀ x, x < GRID_SIZE.1 → ∀ z, z < GRID_SIZE.2.2 →
        cell (clear_full_layers G2).2 x 18 z = none ∧
          cell (clear_full_layers G2).2 x 19 z = none) := by
  have e20 : GRID_SIZE.2.1 = 20 := rfl
  refine ⟨layer_full_iff, ?_, ?_, ?_, ?_, ?_, ?_, ?_⟩
  · intro fuel y g hy hfull
    rw [clear_loop, if_pos hy, if_pos hfull]
  · intro fuel y g hy hfull
    rw [clear_loop, if_pos hy, hfull]
    rfl
  · intro g hw y hy a b c ha hb hc
    exact cell_shift_layers_down hw hy ha hb hc
  · intro y hy
    rw [layer_full_agrees agrees_G2 hy]
    exact ffull_f2 hy
  · show (clear_loop 1280 0 G2).1 = 2
    rw [G2_bridge.1, floop_f2]
  · intro y' h6 h20 x hx z hz
    have hy2 : y' - 2 < GRID_SIZE.2.1 := by omega
    have e1 := G2_bridge.2 x hx (y' - 2) hy2 z hz
    show cell (clear_loop 1280 0 G2).2 x (y' - 2) z = cell G2 x y' z
    rw [e1, floop_f2, agrees_G2 x hx y' h20 z hz]
    simp only [fshift]
    rw [if_neg (show ¬(y' - 2 = GRID_SIZE.2.1 - 1) by omega),
      if_pos (show 4 ≤ y' - 2 by omega),
      if_neg (show ¬(y' - 2 + 1 = GRID_SIZE.2.1 - 1) by omega),
      if_pos (show 3 ≤ y' - 2 + 1 by omega),
      show y' - 2 + 1 + 1 = y' by omega]
  · intro x hx z hz
    constructor
    · have e1 := G2_bridge.2 x hx 18 (by omega) z hz
      show cell (clear_loop 1280 0 G2).2 x 18 z = none
      rw [e1, floop_f2]
      simp only [fshift]
      rw [if_neg (show ¬(18 = GRID_SIZE.2.1 - 1) by omega),
        if_pos (show 4 ≤ 18 by omega),
        if_pos (show (18 + 1 : Nat) = GRID_SIZE.2.1 - 1 by omega)]
    · have e1 := G2_bridge.2 x hx 19 (by omega) z hz
      show cell (clear_loop 1280 0 G2).2 x 19 z = none
      rw [e1, floop_f2]
      simp only [fshift]
      rw [if_pos (show (19 : Nat) = GRID_SIZE.2.1 - 1 by omega)]

/-- Witness for C2 at concrete inputs: layer 3 of `G2`, the cell (2, 7, 3)
landing at (2, 5, 3), and the cleared-layer count. -/
theorem c2_clear_full_layers_witness :
    (3 < GRID_SIZE.2.1 ∧ (layer_full G2 3 = true ↔ ((3 : Nat) = 3 ∨ (3 : Nat) = 5)))
    ∧ (6 ≤ 7 ∧ 7 < GRID_SIZE.2.1 ∧ 2 < GRID_SIZE.1 ∧ 3 < GRID_SIZE.2.2 ∧
        cell (clear_full_layers G2).2 2 5 3 = cell G2 2 7 3)
    ∧ (clear_full_layers G2).1 = 2 :=
  ⟨⟨by decide, c2_clear_full_layers.2.2.2.2.1 3 (by decide)⟩,
    ⟨by decide, by decide, by decide, by decide,
      c2_clear_full_layers.2.2.2.2.2.2.1 7 (by decide) (by decide) 2
        (by decide) 3 (by decide)⟩,
    c2_clear_full_layers.2.2.2.2.2.1⟩

/-- C1: `check_collision` returns true iff some absolute cell (anchor +
offset) has its X coordinate outside [0, 8), its Y coordinate outside
[0, 20), its Z coordinate outside [0, 8), or hits an occupied grid cell; it
returns false exactly when every such cell is in bounds and empty. -/
theorem c1_check_collision_iff :
    ∀ (g : Grid) (shape : List V3) (position : V3),
      (check_collision g shape position = true ↔
        ∃ o ∈ shape,
          ¬(0 ≤ position.1 + o.1 ∧ position.1 + o.1 < (GRID_SIZE.1 : Int)) ∨
          ¬(0 ≤ position.2.1 + o.2.1 ∧ position.2.1 + o.2.1 < (GRID_SIZE.2.1 : Int)) ∨
          ¬(0 ≤ position.2.2 + o.2.2 ∧ position.2.2 + o.2.2 < (GRID_SIZE.2.2 : Int)) ∨
          (cell g (position.1 + o.1).toNat (position.2.1 + o.2.1).toNat
            (position.2.2 + o.2.2).toNat).isSome = true)
      ∧ (check_collision g shape position = false ↔
        ∀ o ∈ shape,
          (0 ≤ position.1 + o.1 ∧ position.1 + o.1 < (GRID_SIZE.1 : Int)) ∧
          (0 ≤ position.2.1 + o.2.1 ∧ position.2.1 + o.2.1 < (GRID_SIZE.2.1 : Int)) ∧
          (0 ≤ position.2.2 + o.2.2 ∧ position.2.2 + o.2.2 < (GRID_SIZE.2.2 : Int)) ∧
          cell g (position.1 + o.1).toNat (position.2.1 + o.2.1).toNat
            (position.2.2 + o.2.2).toNat = none) := by
  intro g shape position
  have hiff : check_collision g shape position = true ↔
      ∃ o ∈ shape,
        ¬(0 ≤ position.1 + o.1 ∧ position.1 + o.1 < (GRID_SIZE.1 : Int)) ∨
        ¬(0 ≤ position.2.1 + o.2.1 ∧ position.2.1 + o.2.1 < (GRID_SIZE.2.1 : Int)) ∨
        ¬(0 ≤ position.2.2 + o.2.2 ∧ position.2.2 + o.2.2 < (GRID_SIZE.2.2 : Int)) ∨
        (cell g (position.1 + o.1).toNat (position.2.1 + o.2.1).toNat
          (position.2.2 + o.2.2).toNat).isSome = true := by
    rw [check_collision, List.any_eq_true]
    apply exists_congr
    intro o
    apply and_congr_right
    intro _
    simp only [Bool.or_eq_true, decide_eq_true_eq]
    have e1 : (position.1 + o.1 < 0 ∨ (GRID_SIZE.1 : Int) ≤ position.1 + o.1) ↔
        ¬(0 ≤ position.1 + o.1 ∧ position.1 + o.1 < (GRID_SIZE.1 : Int)) := by omega
    have e2 : (position.2.1 + o.2.1 < 0 ∨ (GRID_SIZE.2.1 : Int) ≤ position.2.1 + o.2.1) ↔
        ¬(0 ≤ position.2.1 + o.2.1 ∧ position.2.1 + o.2.1 < (GRID_SIZE.2.1 : Int)) := by
      omega
    have e3 : (position.2.2 + o.2.2 < 0 ∨ (GRID_SIZE.2.2 : Int) ≤ position.2.2 + o.2.2) ↔
        ¬(0 ≤ position.2.2 + o.2.2 ∧ position.2.2 + o.2.2 < (GRID_SIZE.2.2 : Int)) := by
      omega
    constructor
    · rintro ((((((h | h) | h) | h) | h) | h) | h)
      · exact Or.inl (e1.mp (Or.inl h))
      · exact Or.inl (e1.mp (Or.inr h))
      · exact Or.inr (Or.inl (e2.mp (Or.inl h)))
      · exact Or.inr (Or.inl (e2.mp (Or.inr h)))
      · exact Or.inr (Or.inr (Or.inl (e3.mp (Or.inl h))))
      · exact Or.inr (Or.inr (Or.inl (e3.mp (Or.inr h))))
      · exact Or.inr (Or.inr (Or.inr h))
    · rintro (h | h | h | h)
      · rcases e1.mpr h with h' | h'
        · exact Or.inl (Or.inl (Or.inl (Or.inl (Or.inl (Or.inl h')))))
        · exact Or.inl (Or.inl (Or.inl (Or.inl (Or.inl (Or.inr h')))))
      · rcases e2.mpr h with h' | h'
        · exact Or.inl (Or.inl (Or.inl (Or.inl (Or.inr h'))))
        · exact Or.inl (Or.inl (Or.inl (Or.inr h')))
      · rcases e3.mpr h with h' | h'
        · exact Or.inl (Or.inl (Or.inr h'))
        · exact Or.inl (Or.inr h')
      · exact Or.inr h
  refine ⟨hiff, ?_⟩
  rw [Bool.eq_false_iff, ne_eq, hiff]
  push_neg
  apply forall_congr'
  intro o
  apply imp_congr_right
  intro _
  simp only [ne_eq, Option.not_isSome_iff_eq_none]

/-- C9: four successive Y-axis rotations restore any offset list exactly, so
rotation is closed under four quarter turns and three applications invert one
(three then one, or one then three, both give back the original shape). -/
theorem c9_rotation_round_trip :
    ∀ shape : List V3,
      rotate 1 (rotate 1 (rotate 1 (rotate 1 shape))) = shape
      ∧ rotate 1 ((rotate 1)^[3] shape) = shape
      ∧ (rotate 1)^[3] (rotate 1 shape) = shape := by
  have quad : ∀ shape : List V3, rotate 1 (rotate 1 (rotate 1 (rotate 1 shape))) = shape := by
    intro shape
    induction shape with
    | nil => rfl
    | cons o rest ih =>
      obtain ⟨x, y, z⟩ := o
      simpa [rotate] using ih
  intro shape
  refine ⟨quad shape, ?_, ?_⟩
  · rw [show (rotate 1)^[3] shape =
      rotate 1 (rotate 1 (rotate 1 shape)) from rfl]
    exact quad shape
  · rw [show (rotate 1)^[3] (rotate 1 shape) =
      rotate 1 (rotate 1 (rotate 1 (rotate 1 shape))) from rfl]
    exact quad shape



theorem updated_score_eq (s lc n : Nat) :
    updated_score s lc n = s + n * 10 + clear_bonus_spec lc := by
  rcases lc with _ | _ | _ | _ | _ | m
  · rw [updated_score, if_neg (by omega), clear_bonus_spec, if_pos rfl]
    omega
  · rw [updated_score, if_pos (by omega),
      show layer_scores_get 1 = 100 from rfl, clear_bonus_spec,
      if_neg (by omega), if_pos rfl]
    omega
  · rw [updated_score, if_pos (by omega),
      show layer_scores_get 2 = 300 from rfl, clear_bonus_spec,
      if_neg (by omega), if_neg (by omega), if_pos rfl]
    omega
  · rw [updated_score, if_pos (by omega),
      show layer_scores_get 3 = 500 from rfl, clear_bonus_spec,
      if_neg (by omega), if_neg (by omega), if_neg (by omega), if_pos rfl]
    omega
  · rw [updated_score, if_pos (by omega),
      show layer_scores_get 4 = 800 from rfl, clear_bonus_spec,
      if_neg (by omega), if_neg (by omega), if_neg (by omega), if_neg (by omega),
      if_pos rfl]
    omega
  · rw [updated_score, if_pos (by omega),
      show layer_scores_get (m + 5) = (m + 5) * 100 from rfl, clear_bonus_spec,
      if_neg (by omega), if_neg (by omega), if_neg (by omega), if_neg (by omega),
      if_neg (by omega)]
    omega

/-- C3: every locking event adds 10 points per cell of the locked piece plus
a clear bonus of 100/300/500/800 for 1/2/3/4 cleared layers and 100 per layer
beyond 4; so a 4-cell piece adds 40, 140, 840 or 540 points when 0, 1, 4 or 5
layers clear. -/
theorem c3_scoring :
    (∀ (refill : List Nat) (st st' : GameState) (p : Tetromino),
      st.current_piece = some p →
      lock_piece_and_clear refill st = some st' →
      st'.score = st.score + p.shape.length * 10 +
        clear_bonus_spec (clear_full_layers (lock_shape p st.grid)).1)
    ∧ (∀ s lc n, updated_score s lc n = s + n * 10 + clear_bonus_spec lc)
    ∧ (∀ s, updated_score s 0 4 = s + 40)
    ∧ (∀ s, updated_score s 1 4 = s + 140)
    ∧ (∀ s, updated_score s 4 4 = s + 840)
    ∧ (∀ s, updated_score s 5 4 = s + 540) := by
  refine ⟨?_, updated_score_eq, ?_, ?_, ?_, ?_⟩
  · intro refill st st' p hp h
    simp only [lock_piece_and_clear, hp] at h
    have hs := (spawn_inversion h).1
    rw [hs]
    exact updated_score_eq st.score (clear_full_layers (lock_shape p st.grid)).1
      p.shape.length
  · intro s; rw [updated_score_eq]; rfl
  · intro s; rw [updated_score_eq]; rfl
  · intro s; rw [updated_score_eq]; rfl
  · intro s; rw [updated_score_eq]; rfl

/-- Witness for C3: locking the I-piece of the fresh state `gs0` (no layer
clears) adds exactly 40 points. -/
theorem c3_scoring_witness :
    gs0.current_piece = some pieceI ∧
    lock_piece_and_clear refill0 gs0 = some st3 ∧
    st3.score = gs0.score + pieceI.shape.length * 10 +
      clear_bonus_spec (clear_full_layers (lock_shape pieceI gs0.grid)).1 :=
  ⟨rfl, by rfl, c3_scoring.1 refill0 gs0 st3 pieceI rfl (by rfl)⟩
/-- C5 (refuted by the code): the very first spawn of a game pops the bag
twice, but the bag is only refilled when empty; on the reachable restart
state `st5` (no current piece, one leftover bag entry) the second pop hits an
empty bag — the model returns `none` where Python raises `IndexError`. -/
theorem c5_first_spawn_pop_fails :
    ∀ refill : List Nat, spawn_new_piece refill st5 = none :=
  fun _ => rfl

/-- C6: starting from a bag refilled with any permutation of the 7 shape
indices, the next 7 draws (end-of-list pops, as `spawn_new_piece` performs)
yield each of the 7 indices exactly once and empty the bag before any index
repeats; a spawn on a non-empty bag with a current piece consumes exactly the
last bag entry. -/
theorem c6_bag_fairness :
    ∀ bag : List Nat, bag.Perm (List.range 7) →
      draw_n 7 bag = some (bag.reverse, []) ∧
      (∀ i, i < 7 → bag.reverse.count i = 1) ∧
      bag.reverse.Nodup ∧
      (∀ (refill : List Nat) (st st2 : GameState),
        st.current_piece ≠ none → st.piece_bag ≠ [] →
        spawn_new_piece refill st = some st2 →
        st2.piece_bag = st.piece_bag.dropLast) := by
  intro bag hperm
  have hlen : bag.length = 7 := by rw [hperm.length_eq, List.length_range]
  have hrevperm : bag.reverse.Perm (List.range 7) :=
    (List.reverse_perm bag).trans hperm
  refine ⟨?_, ?_, ?_, ?_⟩
  · rw [← hlen]
    exact draw_n_length bag
  · intro i hi
    rw [hrevperm.count_eq]
    exact List.count_eq_one_of_mem (List.nodup_range 7) (List.mem_range.mpr hi)
  · exact hrevperm.nodup_iff.mpr (List.nodup_range 7)
  · intro refill st st2 h1 h2 h3
    exact (spawn_inversion h3).2.2.2.2 h1 h2

/-- Witness for C6: a concrete shuffled bag. -/
theorem c6_bag_fairness_witness :
    ([2, 5, 0, 6, 3, 1, 4] : List Nat).Perm (List.range 7) ∧
    draw_n 7 [2, 5, 0, 6, 3, 1, 4] = some ([4, 1, 3, 6, 0, 5, 2], []) ∧
    ([2, 5, 0, 6, 3, 1, 4] : List Nat).reverse.count 0 = 1 :=
  ⟨by decide, (c6_bag_fairness [2, 5, 0, 6, 3, 1, 4] (by decide)).1,
    (c6_bag_fairness [2, 5, 0, 6, 3, 1, 4] (by decide)).2.1 0 (by decide)⟩

theorem move_move_neg (p : Tetromino) (d : V3) :
    (p.move d).move (-d.1, -d.2.1, -d.2.2) = p := by
  obtain ⟨sh, ⟨px, py, pz⟩, col⟩ := p
  obtain ⟨dx, dy, dz⟩ := d
  simp [Tetromino.move]

/-- C7: a speculative lateral move or rotation that collides is reverted
exactly (anchor and, for rotation, offsets restored bit for bit — move by
`d` then `-d` cancels with no drift), and no such operation returns a piece
in a colliding state when the piece did not collide beforehand. -/
theorem c7_speculative_revert :
    ∀ (g : Grid) (p : Tetromino) (d : V3) (axis : Fin 3) (n : Nat),
      ((p.move d).move (-d.1, -d.2.1, -d.2.2) = p)
      ∧ (check_collision g (p.move d).shape (p.move d).position = true →
          try_move g p d = p)
      ∧ (check_collision g (p.move d).shape (p.move d).position = false →
          try_move g p d = p.move d)
      ∧ (check_collision g ((rotate axis)^[n] p.shape) p.position = true →
          try_rotate g p axis n = p)
      ∧ (check_collision g ((rotate axis)^[n] p.shape) p.position = false →
          try_rotate g p axis n = { p with shape := (rotate axis)^[n] p.shape })
      ∧ (check_collision g p.shape p.position = false →
          check_collision g (try_move g p d).shape (try_move g p d).position = false)
      ∧ (check_collision g p.shape p.position = false →
          check_collision g (try_rotate g p axis n).shape
            (try_rotate g p axis n).position = false)
      ∧ (∀ alt : V3, check_collision g p.shape p.position = false →
          check_collision g (try_move_wasd g p d alt).shape
            (try_move_wasd g p d alt).position = false) := by
  intro g p d axis n
  have hmove_t : check_collision g (p.move d).shape (p.move d).position = true →
      try_move g p d = p := by
    intro hcol
    rw [try_move, if_pos hcol]
    exact move_move_neg p d
  have hmove_f : check_collision g (p.move d).shape (p.move d).position = false →
      try_move g p d = p.move d := by
    intro hcol
    rw [try_move, if_neg (by rw [hcol]; exact Bool.false_ne_true)]
  have hrot_t : check_collision g ((rotate axis)^[n] p.shape) p.position = true →
      try_rotate g p axis n = p := by
    intro hcol
    rw [try_rotate, if_pos hcol]
  have hrot_f : check_collision g ((rotate axis)^[n] p.shape) p.position = false →
      try_rotate g p axis n = { p with shape := (rotate axis)^[n] p.shape } := by
    intro hcol
    rw [try_rotate, if_neg (by rw [hcol]; exact Bool.false_ne_true)]
  refine ⟨move_move_neg p d, hmove_t, hmove_f, hrot_t, hrot_f, ?_, ?_, ?_⟩
  · intro hsafe
    rcases hcol : check_collision g (p.move d).shape (p.move d).position with _ | _
    · rw [hmove_f hcol]
      exact hcol
    · rw [hmove_t hcol]
      exact hsafe
  · intro hsafe
    rcases hcol : check_collision g ((rotate axis)^[n] p.shape) p.position with _ | _
    · rw [hrot_f hcol]
      exact hcol
    · rw [hrot_t hcol]
      exact hsafe
  · intro alt hsafe
    rcases hcol1 : check_collision g (p.move d).shape (p.move d).position with _ | _
    · rw [try_move_wasd, if_neg (by rw [hcol1]; exact Bool.false_ne_true)]
      exact hcol1
    · rw [try_move_wasd, if_pos hcol1, move_move_neg p d]
      rcases hcol2 : check_collision g (p.move alt).shape (p.move alt).position with _ | _
      · rw [if_neg (by rw [hcol2]; exact Bool.false_ne_true)]
        exact hcol2
      · rw [if_pos hcol2, move_move_neg p alt]
        exact hsafe

/-- Witness for C7: on an empty grid the I-piece collides one step to the
right of its spawn anchor (X runs off the grid) and the move is reverted;
from the safe spawn anchor a Y rotation returns a non-colliding piece. -/
theorem c7_speculative_revert_witness :
    (check_collision reset_grid (pieceI.move (1, 0, 0)).shape
        (pieceI.move (1, 0, 0)).position = true ∧
      try_move reset_grid pieceI (1, 0, 0) = pieceI) ∧
    (check_collision reset_grid pieceI.shape pieceI.position = false ∧
      check_collision reset_grid (try_rotate reset_grid pieceI 1 1).shape
        (try_rotate reset_grid pieceI 1 1).position = false) :=
  ⟨⟨by decide, (c7_speculative_revert reset_grid pieceI (1, 0, 0) 1 1).2.1 (by decide)⟩,
    ⟨by decide, (c7_speculative_revert reset_grid pieceI (1, 0, 0) 1 1).2.2.2.2.2.2.1
      (by decide)⟩⟩

/-- C8: a collision at the spawn anchor is the sole game-over trigger — a
successful spawn sets `game_over` exactly when the freshly promoted current
piece collides (at the fixed spawn anchor when it is a fresh piece), locking
propagates that through the post-clear grid, a non-colliding gravity move
changes nothing else — and once `game_over` holds, a tick applies no further
gravity step and leaves the state untouched. -/
theorem c8_game_over :
    (∀ (refill : List Nat) (ls : LoopState) (delta : Nat),
      ls.gs.game_over = true → game_loop_tick refill ls delta = some ls)
    ∧ (∀ (refill : List Nat) (st st2 : GameState),
        spawn_new_piece refill st = some st2 →
        st2.grid = st.grid ∧
          ∃ c, st2.current_piece = some c ∧
            st2.game_over = (st.game_over || check_collision st.grid c.shape c.position) ∧
            (st.current_piece = none → c.position = spawn_position) ∧
            (st.current_piece ≠ none → st.next_piece = some c))
    ∧ (∀ (refill : List Nat) (st st2 : GameState) (p : Tetromino),
        st.current_piece = some p →
        lock_piece_and_clear refill st = some st2 →
        ∃ c, st2.current_piece = some c ∧
          st2.game_over = (st.game_over ||
            check_collision (clear_full_layers (lock_shape p st.grid)).2
              c.shape c.position))
    ∧ (∀ (refill : List Nat) (st : GameState) (p : Tetromino),
        check_collision st.grid (p.move (0, -1, 0)).shape
            (p.move (0, -1, 0)).position = false →
        gravity_step refill st p =
          some { st with current_piece := some (p.move (0, -1, 0)) }) := by
  refine ⟨?_, ?_, ?_, ?_⟩
  · intro refill ls delta hgo
    rw [game_loop_tick, if_neg]
    rintro ⟨-, h2⟩
    rw [hgo] at h2
    simp at h2
  · intro refill st st2 h
    obtain ⟨-, hgrid, -, ⟨c, hc1, hc2, hc3, hc4⟩, -⟩ := spawn_inversion h
    exact ⟨hgrid, c, hc1, hc2, hc3, hc4⟩
  · intro refill st st2 p hp h
    simp only [lock_piece_and_clear, hp] at h
    obtain ⟨-, -, -, ⟨c, hc1, hc2, -, -⟩, -⟩ := spawn_inversion h
    exact ⟨c, hc1, hc2⟩
  · intro refill st p hcol
    rw [gravity_step, if_neg (by rw [hcol]; exact Bool.false_ne_true)]

/-- Witness for C8: the frozen tick on a game-over state, and a spawn into
the blocked anchor of `st8` that turns `game_over` on. -/
theorem c8_game_over_witness :
    (ls8.gs.game_over = true ∧ game_loop_tick refill0 ls8 777 = some ls8) ∧
    (spawn_new_piece [] st8 = some st8p ∧
      st8p.grid = st8.grid ∧
      (∃ c, st8p.current_piece = some c ∧
        st8p.game_over = (st8.game_over || check_collision st8.grid c.shape c.position) ∧
        (st8.current_piece = none → c.position = spawn_position) ∧
        (st8.current_piece ≠ none → st8.next_piece = some c))) ∧
    st8p.game_over = true :=
  ⟨⟨rfl, c8_game_over.1 refill0 ls8 777 rfl⟩,
    ⟨by rfl, c8_game_over.2.1 [] st8 st8p (by rfl)⟩,
    by rfl⟩

/-- C4 counterexample: with an empty accumulator, a single tick of 1000 ms
crosses the 500 ms threshold twice, but the loop subtracts 500 only once and
applies exactly ONE gravity step — the accumulator ends at 500 (not 0) and
the piece has fallen one cell (to y = 16, not 15). -/
theorem c4_multi_threshold_counterexample :
    game_loop_tick refill0 ls0 1000 =
      some ⟨STATE_PLAYING,
        { gs0 with current_piece := some (pieceI.move (0, -1, 0)) }, 500⟩
    ∧ (game_loop_tick refill0 ls0 1000).map LoopState.acc ≠ some 0
    ∧ (game_loop_tick refill0 ls0 1000).map
        (fun l => l.gs.current_piece.map Tetromino.position) ≠
      some (some ((4 : Int), (15 : Int), (4 : Int))) := by
  have h1 : game_loop_tick refill0 ls0 1000 =
      some ⟨STATE_PLAYING,
        { gs0 with current_piece := some (pieceI.move (0, -1, 0)) }, 500⟩ := by rfl
  refine ⟨h1, ?_, ?_⟩
  · rw [h1]
    simp
  · rw [h1]
    simp [pieceI, Tetromino.move, spawn_position, GRID_SIZE]

/-- C4 (amended): each tick adds the elapsed time to the fall accumulator;
when the accumulator reaches 500 ms it is decremented by 500 ONCE and exactly
one gravity step is applied in that tick — a tick crossing several thresholds
still applies a single step and keeps the surplus in the accumulator, which
triggers one further step on each of the following ticks (shown concretely:
after the 1000 ms tick, a 0 ms tick applies the second step). -/
theorem c4_one_gravity_step_per_tick :
    (∀ (refill : List Nat) (ls : LoopState) (delta : Nat),
      ls.mode = STATE_PLAYING → ls.gs.game_over = false →
      (ls.acc + delta < FALL_INTERVAL_MS →
        game_loop_tick refill ls delta = some ⟨ls.mode, ls.gs, ls.acc + delta⟩)
      ∧ (FALL_INTERVAL_MS ≤ ls.acc + delta →
          ∀ p, ls.gs.current_piece = some p →
          game_loop_tick refill ls delta = (gravity_step refill ls.gs p).map
            (fun gs1 => ⟨if gs1.game_over then STATE_GAME_OVER else ls.mode, gs1,
              ls.acc + delta - FALL_INTERVAL_MS⟩)))
    ∧ game_loop_tick refill0
        ⟨STATE_PLAYING,
          { gs0 with current_piece := some (pieceI.move (0, -1, 0)) }, 500⟩ 0 =
      some ⟨STATE_PLAYING,
        { gs0 with current_piece := some ((pieceI.move (0, -1, 0)).move (0, -1, 0)) },
        0⟩ := by
  refine ⟨?_, by rfl⟩
  intro refill ls delta hm hgo
  constructor
  · intro hlt
    rw [game_loop_tick, if_pos ⟨hm, hgo⟩, if_neg (by omega)]
  · intro hge p hp
    rw [game_loop_tick, if_pos ⟨hm, hgo⟩, if_pos hge, hp]

/-- Witness for the amended C4 at the concrete 1000 ms tick. -/
theorem c4_one_gravity_step_per_tick_witness :
    (ls0.mode = STATE_PLAYING ∧ ls0.gs.game_over = false ∧
      FALL_INTERVAL_MS ≤ ls0.acc + 1000 ∧ ls0.gs.current_piece = some pieceI) ∧
    game_loop_tick refill0 ls0 1000 = (gravity_step refill0 ls0.gs pieceI).map
      (fun gs1 => ⟨if gs1.game_over then STATE_GAME_OVER else ls0.mode, gs1,
        ls0.acc + 1000 - FALL_INTERVAL_MS⟩) :=
  ⟨⟨rfl, rfl, by decide, rfl⟩,
    ((c4_one_gravity_step_per_tick.1 refill0 ls0 1000 rfl rfl).2 (by decide)
      pieceI rfl)⟩

theorem lock_shape_cells (pos : V3) (col : Color) :
    ∀ (os : List V3) (g : Grid), grid_wf g →
      ∀ x y z : Nat, x < GRID_SIZE.1 → y < GRID_SIZE.2.1 → z < GRID_SIZE.2.2 →
        cell (lock_shape ⟨os, pos, col⟩ g) x y z =
          if ∃ o ∈ os, pos.1 + o.1 = (x : Int) ∧ pos.2.1 + o.2.1 = (y : Int) ∧
              pos.2.2 + o.2.2 = (z : Int)
          then some col else cell g x y z := by
  intro os
  induction os with
  | nil =>
    intro g hw x y z hx hy hz
    rw [if_neg (by rintro ⟨o, ho, -⟩; exact absurd ho (List.not_mem_nil o))]
    rfl
  | cons o os ih =>
    intro g hw x y z hx hy hz
    rw [show lock_shape ⟨o :: os, pos, col⟩ g = lock_shape ⟨os, pos, col⟩
        (if 0 ≤ pos.1 + o.1 ∧ pos.1 + o.1 < (GRID_SIZE.1 : Int) ∧
            0 ≤ pos.2.1 + o.2.1 ∧ pos.2.1 + o.2.1 < (GRID_SIZE.2.1 : Int) ∧
            0 ≤ pos.2.2 + o.2.2 ∧ pos.2.2 + o.2.2 < (GRID_SIZE.2.2 : Int) then
          set_cell g (pos.1 + o.1).toNat (pos.2.1 + o.2.1).toNat
            (pos.2.2 + o.2.2).toNat (some col)
        else g) from rfl]
    by_cases hC : 0 ≤ pos.1 + o.1 ∧ pos.1 + o.1 < (GRID_SIZE.1 : Int) ∧
        0 ≤ pos.2.1 + o.2.1 ∧ pos.2.1 + o.2.1 < (GRID_SIZE.2.1 : Int) ∧
        0 ≤ pos.2.2 + o.2.2 ∧ pos.2.2 + o.2.2 < (GRID_SIZE.2.2 : Int)
    · rw [if_pos hC]
      have hX : (pos.1 + o.1).toNat < GRID_SIZE.1 := by omega
      have hY : (pos.2.1 + o.2.1).toNat < GRID_SIZE.2.1 := by omega
      have hZ : (pos.2.2 + o.2.2).toNat < GRID_SIZE.2.2 := by omega
      rw [ih _ (grid_wf_set_cell hw _ _ _ hX hY hZ _) x y z hx hy hz,
        cell_set_cell hw _ _ _ hX hY hZ _ x y z]
      by_cases hex : ∃ o2 ∈ os, pos.1 + o2.1 = (x : Int) ∧
          pos.2.1 + o2.2.1 = (y : Int) ∧ pos.2.2 + o2.2.2 = (z : Int)
      · obtain ⟨o2, ho2, h1, h2, h3⟩ := hex
        rw [if_pos ⟨o2, ho2, h1, h2, h3⟩,
          if_pos ⟨o2, List.mem_cons_of_mem o ho2, h1, h2, h3⟩]
      · rw [if_neg hex]
        by_cases hmap : (pos.1 + o.1).toNat = x ∧ (pos.2.1 + o.2.1).toNat = y ∧
            (pos.2.2 + o.2.2).toNat = z
        · rw [if_pos hmap,
            if_pos ⟨o, List.mem_cons_self o os, by omega, by omega, by omega⟩]
        · rw [if_neg hmap, if_neg]
          rintro ⟨o2, ho2, h1, h2, h3⟩
          rcases List.mem_cons.mp ho2 with rfl | hmem
          · exact hmap ⟨by omega, by omega, by omega⟩
          · exact hex ⟨o2, hmem, h1, h2, h3⟩
    · rw [if_neg hC, ih _ hw x y z hx hy hz]
      by_cases hex : ∃ o2 ∈ os, pos.1 + o2.1 = (x : Int) ∧
          pos.2.1 + o2.2.1 = (y : Int) ∧ pos.2.2 + o2.2.2 = (z : Int)
      · obtain ⟨o2, ho2, h1, h2, h3⟩ := hex
        rw [if_pos ⟨o2, ho2, h1, h2, h3⟩,
          if_pos ⟨o2, List.mem_cons_of_mem o ho2, h1, h2, h3⟩]
      · rw [if_neg hex, if_neg]
        rintro ⟨o2, ho2, h1, h2, h3⟩
        rcases List.mem_cons.mp ho2 with rfl | hmem
        · exact hC ⟨by omega, by omega, by omega, by omega, by omega, by omega⟩
        · exact hex ⟨o2, hmem, h1, h2, h3⟩

/-- C10: locking writes the piece's color into exactly those in-bounds grid
cells the piece occupies, silently skips any out-of-bounds cell (the write
fold is total and such offsets leave the grid untouched), and leaves every
other cell unchanged — stated on the grid before layer clearing runs. -/
theorem c10_lock_writes :
    ∀ (p : Tetromino) (g : Grid), grid_wf g →
      ∀ x y z : Nat, x < GRID_SIZE.1 → y < GRID_SIZE.2.1 → z < GRID_SIZE.2.2 →
        cell (lock_shape p g) x y z =
          if ∃ o ∈ p.shape, p.position.1 + o.1 = (x : Int) ∧
              p.position.2.1 + o.2.1 = (y : Int) ∧ p.position.2.2 + o.2.2 = (z : Int)
          then some p.color else cell g x y z := by
  intro p g hw x y z hx hy hz
  obtain ⟨os, pos, col⟩ := p
  exact lock_shape_cells pos col os g hw x y z hx hy hz

/-- Witness for C10: locking the I-piece of `gs0` on the empty grid, looked
at one cell it occupies. -/
theorem c10_lock_writes_witness :
    grid_wf reset_grid ∧ (4 < GRID_SIZE.1 ∧ 17 < GRID_SIZE.2.1 ∧ 4 < GRID_SIZE.2.2) ∧
      cell (lock_shape pieceI reset_grid) 4 17 4 =
        (if ∃ o ∈ pieceI.shape, pieceI.position.1 + o.1 = (4 : Int) ∧
            pieceI.position.2.1 + o.2.1 = (17 : Int) ∧
            pieceI.position.2.2 + o.2.2 = (4 : Int)
        then some pieceI.color else cell reset_grid 4 17 4) :=
  ⟨grid_wf_reset, ⟨by decide, by decide, by decide⟩,
    c10_lock_writes pieceI reset_grid grid_wf_reset 4 17 4
      (by decide) (by decide) (by decide)⟩

end Tetris3D
